import Mathlib

/-!
Shallow embedding of the SAM-UN SITREP dashboard (src/app.py together with
src/supabase_client.py): the incident row model, the Supabase query wrapper
`get_sitreps`, the heat-map grid aggregation, the stats groupings, the layer
storage endpoints (update / convert with their remote-or-local fallback
logic), incident creation and deletion, the GeoJSON view with default
coordinates, and the LLM-insights validation pipeline.

Machine reals of the Python code are embedded as exact rationals; Python's
builtin `round` (round half to even) is `pyRound`; Python's stable `sorted`
is embedded as a stable insertion sort `sortLe`, which agrees with any stable
sort by the same key; Python dicts keyed by strings are embedded as
association lists in first-insertion order, matching dict iteration order.
-/

namespace SamUn

/-- Insertion step of a stable sort: place `a` before the first element `b`
with `le a b`. -/
def insertLe {α : Type} (le : α → α → Bool) (a : α) : List α → List α
  | [] => [a]
  | b :: bs => if le a b then a :: b :: bs else b :: insertLe le a bs

/-- Stable insertion sort, embedding Python's stable `sorted` and the
PostgREST `order` clause. -/
def sortLe {α : Type} (le : α → α → Bool) : List α → List α
  | [] => []
  | a :: as => insertLe le a (sortLe le as)

/-- Python `x or default` for an optional string: `None` and the empty string
are falsy and are replaced by the default. -/
def pyOr (s : Option String) (d : String) : String :=
  match s with
  | none => d
  | some v => if v = "" then d else v

/-- Python `str.lower()` (character-wise lowercasing). -/
def lowerStr (s : String) : String := ⟨s.data.map Char.toLower⟩

/-- Lexicographic comparison of character lists by code point. -/
def charListLe : List Char → List Char → Bool
  | [], _ => true
  | _ :: _, [] => false
  | a :: as, b :: bs => if a < b then true else if b < a then false else charListLe as bs

/-- Lexicographic string comparison by code point: the order Python's string
comparison and the text comparison on ISO timestamp columns both follow. -/
def strLe (a b : String) : Bool := charListLe a.data b.data

/-- Character-list equality test of a leading segment (`needle` begins `hay`). -/
def leadMatch : List Char → List Char → Bool
  | [], _ => true
  | _ :: _, [] => false
  | a :: as, b :: bs => a == b && leadMatch as bs

/-- Occurrence of `needle` as a contiguous segment of `hay`. -/
def occursIn (needle : List Char) : List Char → Bool
  | [] => needle.isEmpty
  | b :: bs => leadMatch needle (b :: bs) || occursIn needle bs

/-- Python's substring test `needle in hay` on strings. -/
def strContains (hay needle : String) : Bool := occursIn needle.data hay.data

/-- An incident row of the hosted `sitreps` table. Optional fields embed SQL
NULL / absent JSON values; `created_at` is the ISO timestamp string (the
column has a `now()` default and is never null on stored rows). -/
structure Sitrep where
  id : ℕ
  title : String
  source : String
  source_category : Option String
  incident_type : Option String
  severity : Option String
  status : Option String
  unit : Option String
  contact : Option String
  lat : Option ℚ
  lon : Option ℚ
  created_at : String
deriving DecidableEq

/-- Filters accepted by `get_sitreps` (supabase_client.py:48-73). The
`source_category` filter is a comma-separated list of categories. -/
structure Filters where
  from_date : Option String := none
  to_date : Option String := none
  source_category : Option String := none

/-- Splitting step for `String.split(",")`: accumulate characters of the
current piece (in reverse) until a comma. -/
def splitCommaAux (acc : List Char) : List Char → List String
  | [] => [⟨acc.reverse⟩]
  | c :: rest => if c = ',' then ⟨acc.reverse⟩ :: splitCommaAux [] rest
                 else splitCommaAux (c :: acc) rest

/-- Comma split used on the `source_category` filter
(supabase_client.py:63), Python `s.split(",")`. -/
def splitComma (s : String) : List String := splitCommaAux [] s.data

/-- The `gte created_at` filter of `get_sitreps`: ISO-8601 timestamp strings
compare lexicographically, matching timestamp order. -/
def filterFrom (fd : Option String) (l : List Sitrep) : List Sitrep :=
  match fd with
  | some f => l.filter (fun r => strLe f r.created_at)
  | none => l

/-- The `lte created_at` filter of `get_sitreps`. -/
def filterTo (td : Option String) (l : List Sitrep) : List Sitrep :=
  match td with
  | some t => l.filter (fun r => strLe r.created_at t)
  | none => l

/-- The `in_ source_category` filter of `get_sitreps`; a NULL category never
matches an IN list. -/
def filterCats (sc : Option String) (l : List Sitrep) : List Sitrep :=
  match sc with
  | some cs => l.filter (fun r =>
      match r.source_category with
      | some c => (splitComma cs).contains c
      | none => false)
  | none => l

/-- Comparison used by `order("created_at", desc=True)`. -/
def cmpCreatedDesc (a b : Sitrep) : Bool := strLe b.created_at a.created_at

/-- Embedding of `get_sitreps` (supabase_client.py:48-73) over an in-memory
table: apply the optional date-range and category filters, then order by
`created_at` descending. -/
def get_sitreps (table : List Sitrep) (filters : Filters) : List Sitrep :=
  sortLe cmpCreatedDesc
    (filterCats filters.source_category
      (filterTo filters.to_date
        (filterFrom filters.from_date table)))

/-- Floor of a rational, computed with Euclidean integer division. -/
def ratFloor (q : ℚ) : ℤ := Int.ediv q.num (q.den : ℤ)

/-- Python's builtin `round` on a rational: round half to even. -/
def pyRound (q : ℚ) : ℤ :=
  let f : ℤ := ratFloor q
  let frac : ℚ := q - (f : ℚ)
  if frac < (1 : ℚ)/2 then f
  else if (1 : ℚ)/2 < frac then f + 1
  else if f % 2 = 0 then f else f + 1

/-- Severity weight of the heat-map endpoint (app.py:515-526):
`(sitrep.get('severity') or 'unknown').lower()` compared against the fixed
lookup critical/high/medium/low. -/
def severityWeight (sev : Option String) : ℕ :=
  let s := lowerStr (pyOr sev "unknown")
  if s = "critical" then 5
  else if s = "high" then 4
  else if s = "medium" then 3
  else if s = "low" then 2
  else 1

/-- The severity weight as the spec states it: a fixed case-insensitive lookup
critical=5, high=4, medium=3, low=2, and 1 for any other or missing value. -/
def specSeverityWeight (sev : Option String) : ℕ :=
  match sev with
  | none => 1
  | some v =>
    if lowerStr v = "critical" then 5
    else if lowerStr v = "high" then 4
    else if lowerStr v = "medium" then 3
    else if lowerStr v = "low" then 2
    else 1

/-- A row of the heat-map working list (app.py:498-534): coordinates already
validated as numbers, with the severity weight attached. -/
structure HeatRow where
  lat : ℚ
  lon : ℚ
  severity : Option String
  source_category : Option String
  weight : ℕ
deriving DecidableEq

/-- Conversion of fetched sitreps to heat-map rows (app.py:498-534): rows with
a missing coordinate are skipped, the rest get their severity weight. -/
def toHeatRows (rows : List Sitrep) : List HeatRow :=
  rows.filterMap (fun s =>
    match s.lat, s.lon with
    | some la, some lo => some ⟨la, lo, s.severity, s.source_category, severityWeight s.severity⟩
    | _, _ => none)

/-- Grid key of the heat-map aggregation (app.py:553-555):
`round(lat/grid_size)*grid_size` paired with the same for longitude. The
Python code renders the pair into the string key `f"{lat},{lon}"`; distinct
float pairs render to distinct strings, so the pair itself is the key. -/
def gridKey (g : ℚ) (r : HeatRow) : ℚ × ℚ :=
  ((pyRound (r.lat / g) : ℚ) * g, (pyRound (r.lon / g) : ℚ) * g)

/-- Accumulated contents of one grid cell (count and summed weight;
app.py:557-568). -/
structure CellAgg where
  count : ℕ
  weight : ℕ
deriving DecidableEq

/-- One aggregation step: add a row with key `k` and weight `w` to the
association list of grid cells, creating the cell on first sight
(Python dict insertion order preserved). -/
def bumpCell (k : ℚ × ℚ) (w : ℕ) : List ((ℚ × ℚ) × CellAgg) → List ((ℚ × ℚ) × CellAgg)
  | [] => [(k, ⟨1, w⟩)]
  | (k', c) :: rest =>
    if k = k' then (k', ⟨c.count + 1, c.weight + w⟩) :: rest
    else (k', c) :: bumpCell k w rest

/-- The `grid_data` aggregation loop of the heat-map endpoint
(app.py:548-580), restricted to the count and weight accumulators. -/
def gridAgg (g : ℚ) (rows : List HeatRow) : List ((ℚ × ℚ) × CellAgg) :=
  rows.foldl (fun acc r => bumpCell (gridKey g r) r.weight acc) []

/-- Lookup of a grid cell by key in the aggregation association list. -/
def findCell (k : ℚ × ℚ) : List ((ℚ × ℚ) × CellAgg) → Option CellAgg
  | [] => none
  | (k', c) :: rest => if k = k' then some c else findCell k rest

/-- Number of heat rows that the grid assigns to key `k`. -/
def countKey (g : ℚ) (k : ℚ × ℚ) (rows : List HeatRow) : ℕ :=
  rows.countP (fun r => decide (gridKey g r = k))

/-- Total weight of the heat rows that the grid assigns to key `k`. -/
def weightKey (g : ℚ) (k : ℚ × ℚ) (rows : List HeatRow) : ℕ :=
  ((rows.filter (fun r => decide (gridKey g r = k))).map HeatRow.weight).sum

/-- The count the aggregated grid reports for key `k` (0 when the cell is
absent). -/
def cellCount (g : ℚ) (rows : List HeatRow) (k : ℚ × ℚ) : ℕ :=
  ((findCell k (gridAgg g rows)).map CellAgg.count).getD 0

/-- The weight the aggregated grid reports for key `k` (0 when the cell is
absent). -/
def cellWeight (g : ℚ) (rows : List HeatRow) (k : ℚ × ℚ) : ℕ :=
  ((findCell k (gridAgg g rows)).map CellAgg.weight).getD 0

/-- Counting step over a string-keyed Python dict in insertion order
(the `counts[x] = counts.get(x, 0) + 1` idiom of app.py:934-968). -/
def bumpCount (k : String) : List (String × ℕ) → List (String × ℕ)
  | [] => [(k, 1)]
  | (k', n) :: rest =>
    if k = k' then (k', n + 1) :: rest
    else (k', n) :: bumpCount k rest

/-- Group-and-count over the rows by an optional key (rows whose key is absent
are skipped, as the stats endpoint does for unparsable dates). -/
def countsBy (key : Sitrep → Option String) (rows : List Sitrep) : List (String × ℕ) :=
  rows.foldl (fun acc r =>
    match key r with
    | some k => bumpCount k acc
    | none => acc) []

/-- Python `sorted(items, key=lambda x: x[1], reverse=True)`. -/
def sortByCountDesc (l : List (String × ℕ)) : List (String × ℕ) :=
  sortLe (fun a b => decide (b.2 ≤ a.2)) l

/-- Python `sorted(items)` on pairs whose keys are pairwise distinct: the
lexicographic tuple order reduces to the key order. -/
def sortByKeyAsc (l : List (String × ℕ)) : List (String × ℕ) :=
  sortLe (fun a b => strLe a.1 b.1) l

/-- The `by_day` grouping of the stats endpoint (app.py:934-940). `pd` embeds
`parse_date` composed with `.date().isoformat()`: it returns the day key of a
`created_at` string, or none when parsing fails. The result is sorted by day
key ascending. -/
def statsByDay (pd : String → Option String) (rows : List Sitrep) : List (String × ℕ) :=
  sortByKeyAsc (countsBy (fun r => pd r.created_at) rows)

/-- The `by_severity` grouping of the stats endpoint (app.py:943-947),
sorted by count descending. -/
def statsBySeverity (rows : List Sitrep) : List (String × ℕ) :=
  sortByCountDesc (countsBy (fun r => some (lowerStr (pyOr r.severity "unknown"))) rows)

/-- The `by_source_category` grouping of the stats endpoint (app.py:950-954). -/
def statsBySourceCategory (rows : List Sitrep) : List (String × ℕ) :=
  sortByCountDesc (countsBy (fun r => some (lowerStr (pyOr r.source_category "other"))) rows)

/-- The `by_status` grouping of the stats endpoint (app.py:957-961). -/
def statsByStatus (rows : List Sitrep) : List (String × ℕ) :=
  sortByCountDesc (countsBy (fun r => some (lowerStr (pyOr r.status "unknown"))) rows)

/-- The `top_units` list of the stats endpoint (app.py:964-969): counts by
unit (default `Unspecified`), sorted by count descending, truncated to 10. -/
def statsTopUnits (rows : List Sitrep) : List (String × ℕ) :=
  (sortByCountDesc (countsBy (fun r => some (pyOr r.unit "Unspecified")) rows)).take 10

/-- A stored layer document: a parsed GeoJSON dict, recording whether it has a
`features` key, its feature list, and the remaining keys (opaque). -/
structure LayerDoc (F : Type) where
  hasFeatures : Bool
  features : List F
  rest : String
deriving DecidableEq

/-- A fresh FeatureCollection document as both write paths build it
(app.py:681-684 and 706-709). -/
def newDoc {F : Type} (fs : List F) : LayerDoc F :=
  ⟨true, fs, "type=FeatureCollection"⟩

/-- The two layer stores: the remote bucket (layer name to feature list) and
the local `geojson_dir` files (layer name to parsed document). -/
@[ext]
structure LayerStore (F : Type) where
  remote : String → Option (List F)
  localFs : String → Option (LayerDoc F)

/-- Responses of the layer-update endpoint (app.py:668-718). -/
inductive LayerResp where
  | ok (updatedCount : ℕ) (storage : String)
  | invalidData
  | invalidExisting
deriving DecidableEq

/-- Success test on a layer-update response. -/
def LayerResp.isOk : LayerResp → Bool
  | .ok _ _ => true
  | _ => false

/-- The updatedCount carried by a success response. -/
def LayerResp.updatedCount? : LayerResp → Option ℕ
  | .ok n _ => some n
  | _ => none

/-- Embedding of the layer-update endpoint `update_layer` (app.py:668-718).
`remoteOk` states whether the remote bucket write path succeeds (upload, or
bucket-side update when the object already exists, supabase_client.py:149-218);
when it does not, the endpoint falls back to the local file: an existing local
document keeps its other keys and has its `features` key overwritten wholesale,
a missing one is created as a fresh FeatureCollection. `payload` is `none`
when the request body has no `features` key. -/
def update_layer {F : Type} (remoteOk : Bool) (st : LayerStore F) (layer : String)
    (payload : Option (List F)) : LayerStore F × LayerResp :=
  match payload with
  | none => (st, .invalidData)
  | some fs =>
    if remoteOk then
      ({ st with remote := fun n => if n = layer then some fs else st.remote n },
       .ok fs.length "supabase")
    else
      match st.localFs layer with
      | some doc =>
        if doc.hasFeatures then
          ({ st with localFs := fun n =>
              if n = layer then some { doc with features := fs } else st.localFs n },
           .ok fs.length "local")
        else (st, .invalidExisting)
      | none =>
        ({ st with localFs := fun n =>
            if n = layer then some (newDoc fs) else st.localFs n },
         .ok fs.length "local")

/-- The layer read path `get_geojson` (app.py:633-652) restricted to the
feature list: the bucket download when the remote store is available and holds
the layer, the local file otherwise. -/
def readLayer {F : Type} (remoteOk : Bool) (st : LayerStore F) (layer : String) :
    Option (List F) :=
  if remoteOk then
    match st.remote layer with
    | some fs => some fs
    | none => (st.localFs layer).map LayerDoc.features
  else (st.localFs layer).map LayerDoc.features

/-- Python values appearing in the result dicts of `upload_layer_to_bucket`. -/
inductive PyVal where
  | vbool (b : Bool)
  | vstr (s : String)
deriving DecidableEq

/-- Outcome of the remote bucket write inside `upload_layer_to_bucket`
(supabase_client.py:149-187): a successful upload (or bucket-side update), or
a caught failure. -/
inductive UploadOutcome where
  | ok (path : String)
  | err (msg : String)
deriving DecidableEq

/-- The dict that `upload_layer_to_bucket` returns to its callers:
`{"success": True, "path": ...}` on success, `{"error": ...}` on any caught
failure (supabase_client.py:180-187). -/
def uploadLayerResult : UploadOutcome → List (String × PyVal)
  | .ok p => [("success", .vbool true), ("path", .vstr p)]
  | .err m => [("error", .vstr m)]

/-- Python `dict.get(k)`. -/
def pyDictGet (d : List (String × PyVal)) (k : String) : Option PyVal :=
  match d with
  | [] => none
  | (k', v) :: rest => if k = k' then some v else pyDictGet rest k

/-- Python truthiness of a `dict.get` result (`None` is falsy). -/
def pyTruthyVal : Option PyVal → Bool
  | none => false
  | some (.vbool b) => b
  | some (.vstr s) => s ≠ ""

/-- Python truthiness of a dict: any non-empty dict is truthy. -/
def pyTruthyDict (d : List (String × PyVal)) : Bool := !d.isEmpty

/-- The layer-update endpoint's fallback decision (app.py:686-693): it checks
`result.get("success")`, so it writes the local file exactly when that value
is falsy. -/
def updateLayerWritesLocalFallback (res : UploadOutcome) : Bool :=
  ! pyTruthyVal (pyDictGet (uploadLayerResult res) "success")

/-- The conversion endpoint's fallback decision (app.py:793-805): it binds
`success = upload_layer_to_bucket(...)` and tests `if success:`, i.e. the
truthiness of the whole returned dict. -/
def convertWritesLocalFallback (res : UploadOutcome) : Bool :=
  ! pyTruthyDict (uploadLayerResult res)

/-- The `storage` field the conversion endpoint reports (app.py:792-811). -/
def convertStorageLocation (res : UploadOutcome) : String :=
  if pyTruthyDict (uploadLayerResult res) then "supabase" else "local"

/-- JSON values of an incident-creation request body. -/
inductive JVal where
  | null
  | str (s : String)
  | num (q : ℚ)
  | jbool (b : Bool)
deriving DecidableEq

/-- The required-field check of the creation endpoint (app.py:266-269):
`k not in data or data[k] in (None, "")`. -/
def isMissingOrEmpty : Option JVal → Bool
  | none => true
  | some .null => true
  | some (.str s) => s = ""
  | some _ => false

/-- Python `float(v)` on a JSON value; `fos` embeds float-parsing of strings
(`none` when Python would raise). `float(None)` raises; booleans coerce. -/
def pyFloat (fos : String → Option ℚ) : JVal → Option ℚ
  | .null => none
  | .str s => fos s
  | .num q => some q
  | .jbool b => some (if b then 1 else 0)

/-- The fields of the creation request body that validation inspects; `none`
embeds an absent key. -/
structure SitrepPayload where
  source : Option JVal
  lat : Option JVal
  lon : Option JVal

/-- Responses of the incident-creation endpoint (app.py:264-293). -/
inductive PostResp where
  | missingField (field : String)
  | notNumbers
  | created (id : ℕ)
deriving DecidableEq

/-- HTTP-400 test on a creation response. -/
def PostResp.is400 : PostResp → Bool
  | .created _ => false
  | _ => true

/-- The incident table as the creation endpoint sees it: stored rows (id and
parsed coordinates) and the next id the store will generate. -/
structure SitrepTable where
  rows : List (ℕ × ℚ × ℚ)
  nextId : ℕ
deriving DecidableEq

/-- Embedding of the POST branch of `/api/sitreps` (app.py:264-293) over a
working store: validate the three required fields in order, parse lat/lon as
floats, and on success insert one row whose id the store generates
(`insert_sitrep`, supabase_client.py:75-85, returns that id). -/
def api_sitreps_post (fos : String → Option ℚ) (st : SitrepTable)
    (data : SitrepPayload) : SitrepTable × PostResp :=
  if isMissingOrEmpty data.source then (st, .missingField "source")
  else if isMissingOrEmpty data.lat then (st, .missingField "lat")
  else if isMissingOrEmpty data.lon then (st, .missingField "lon")
  else
    match pyFloat fos (data.lat.getD .null), pyFloat fos (data.lon.getD .null) with
    | some la, some lo =>
      ({ rows := st.rows ++ [(st.nextId, la, lo)], nextId := st.nextId + 1 },
       .created st.nextId)
    | _, _ => (st, .notNumbers)

/-- The validation predicate the claim describes: some required field absent
or empty, or lat/lon not parseable as numbers. -/
def postRejected (fos : String → Option ℚ) (data : SitrepPayload) : Bool :=
  isMissingOrEmpty data.source || isMissingOrEmpty data.lat || isMissingOrEmpty data.lon
    || (pyFloat fos (data.lat.getD .null)).isNone
    || (pyFloat fos (data.lon.getD .null)).isNone

/-- Python `str.strip()`: drop leading and trailing whitespace. -/
def pyStrip (s : String) : String :=
  ⟨((s.data.dropWhile Char.isWhitespace).reverse.dropWhile Char.isWhitespace).reverse⟩

/-- Title normalization of the delete endpoint (app.py:994):
strip each title and drop the ones that strip to empty. -/
def normTitles (ts : List String) : List String :=
  (ts.map pyStrip).filter (fun t => t ≠ "")

/-- Responses of the SITREP delete endpoint (app.py:983-1004). -/
inductive DelResp where
  | badRequest (msg : String)
  | deleted (count : ℕ)
deriving DecidableEq

/-- The two incident stores the live application touches: the hosted Supabase
table that every read endpoint queries, and the legacy local SQLite file at
`DATABASE_URL` that the delete endpoint still opens (app.py:46-47, 998). -/
structure TwoStores where
  supa : List Sitrep
  sqlite : List Sitrep
deriving DecidableEq

/-- Embedding of `/api/sitreps/delete` (app.py:983-1004): validate the titles
list, then run `DELETE FROM sitreps WHERE title IN (...)` against the local
SQLite store and report its rowcount. `titles?` is `none` when the `titles`
value is absent or not a list. -/
def api_sitreps_delete (st : TwoStores) (titles? : Option (List String)) :
    TwoStores × DelResp :=
  match titles? with
  | none => (st, .badRequest "Provide a non-empty titles array")
  | some ts =>
    if ts.isEmpty then (st, .badRequest "Provide a non-empty titles array")
    else
      let titles := normTitles ts
      if titles.isEmpty then (st, .badRequest "No valid titles provided")
      else
        let remaining := st.sqlite.filter (fun r => ! titles.contains r.title)
        (⟨st.supa, remaining⟩, .deleted (st.sqlite.length - remaining.length))

/-- What the read endpoints return: `get_sitreps` against the hosted table
(e.g. the GET branch of `/api/sitreps`, app.py:251-263). -/
def readSitreps (st : TwoStores) : List Sitrep := get_sitreps st.supa {}

/-- A pattern item of a parsed LLM insights object: whether the `confidence`
key is present, and its numeric value when it is (app.py:1251-1254). -/
structure RawPattern where
  title : String
  description : String
  hasConfidence : Bool
  confidence : ℚ
deriving DecidableEq

/-- An anomaly item of a parsed LLM insights object. -/
structure RawAnomaly where
  title : String
  description : String
  hasSeverity : Bool
  severity : String
deriving DecidableEq

/-- A trend item of a parsed LLM insights object. -/
structure RawTrend where
  title : String
  description : String
  hasDirection : Bool
  direction : String
deriving DecidableEq

/-- A parsed LLM insights JSON object; `none` on a list field embeds an absent
key (defaulted by `insights.get(key, [])`, app.py:1243-1247). -/
structure RawInsights where
  patterns : Option (List RawPattern)
  anomalies : Option (List RawAnomaly)
  trends : Option (List RawTrend)
  summary : Option String
deriving DecidableEq

/-- A validated pattern (confidence always present and clamped). -/
structure FPattern where
  title : String
  description : String
  confidence : ℚ
deriving DecidableEq

/-- A validated anomaly. -/
structure FAnomaly where
  title : String
  description : String
  severity : String
deriving DecidableEq

/-- A validated trend. -/
structure FTrend where
  title : String
  description : String
  direction : String
deriving DecidableEq

/-- The validated insights object: exactly the four keys patterns, anomalies,
trends, summary — every return branch of the pipeline builds this shape. -/
structure FormattedInsights where
  patterns : List FPattern
  anomalies : List FAnomaly
  trends : List FTrend
  summary : String
deriving DecidableEq

/-- Pattern validation (app.py:1251-1254): default the confidence to 75 when
absent, then clamp with `min(100, max(0, c))`. -/
def validatePattern (p : RawPattern) : FPattern :=
  ⟨p.title, p.description, min 100 (max 0 (if p.hasConfidence then p.confidence else 75))⟩

/-- Anomaly validation (app.py:1257-1261): default the severity to `Medium`
when absent, then force it into the set High/Medium/Low. -/
def validateAnomaly (a : RawAnomaly) : FAnomaly :=
  let s := if a.hasSeverity then a.severity else "Medium"
  ⟨a.title, a.description, if s = "High" ∨ s = "Medium" ∨ s = "Low" then s else "Medium"⟩

/-- Trend validation (app.py:1264-1268): default the direction to `Stable`
when absent, then force it into the set Upward/Downward/Stable. -/
def validateTrend (t : RawTrend) : FTrend :=
  let d := if t.hasDirection then t.direction else "Stable"
  ⟨t.title, t.description, if d = "Upward" ∨ d = "Downward" ∨ d = "Stable" then d else "Stable"⟩

/-- Embedding of `validate_and_format_insights` (app.py:1240-1270). -/
def validate_and_format_insights (j : RawInsights) : FormattedInsights :=
  ⟨(j.patterns.getD []).map validatePattern,
   (j.anomalies.getD []).map validateAnomaly,
   (j.trends.getD []).map validateTrend,
   j.summary.getD "Analysis completed."⟩

/-- The summary truncation of the fallback branch (app.py:1334):
`text[:500] + "..."` when the text is longer than 500 characters. -/
def pyTruncate (s : String) : String :=
  if s.data.length > 500 then ⟨s.data.take 500⟩ ++ "..." else s

/-- The keyword-triggered placeholder insights of the fallback branch of
`parse_text_response_to_insights` (app.py:1330-1361). -/
def fallbackInsights (text : String) : FormattedInsights :=
  let lower := lowerStr text
  ⟨if strContains lower "pattern" then
      [⟨"LLM Identified Pattern",
        "Pattern analysis provided by LLM (see summary for details)", 70⟩]
    else [],
   if strContains lower "anomaly" || strContains lower "unusual" then
      [⟨"LLM Identified Anomaly",
        "Anomaly detected by LLM (see summary for details)", "Medium"⟩]
    else [],
   if strContains lower "trend" || strContains lower "increasing" || strContains lower "decreasing" then
      [⟨"LLM Identified Trend",
        "Trend analysis provided by LLM (see summary for details)",
        if strContains lower "increasing" then "Upward"
        else if strContains lower "decreasing" then "Downward"
        else "Stable"⟩]
    else [],
   pyTruncate text⟩

/-- Embedding of `parse_text_response_to_insights` (app.py:1272-1361).
`extract` embeds the regex and brace-matching JSON salvage strategies
(app.py:1279-1327), returning a parsed object accepted by the
`patterns/anomalies/trends` key check, or `none` when every strategy fails. -/
def parse_text_response_to_insights (extract : String → Option RawInsights)
    (text : String) : FormattedInsights :=
  match extract text with
  | some j => validate_and_format_insights j
  | none => fallbackInsights text

/-- The response-handling tail of `analyze_with_openrouter` (app.py:1105-1110):
direct `json.loads` of the whole response (embedded by `parseJson`), falling
back to the text salvage parse. -/
def analyzeResponse (parseJson extract : String → Option RawInsights)
    (text : String) : FormattedInsights :=
  match parseJson text with
  | some j => validate_and_format_insights j
  | none => parse_text_response_to_insights extract text

/-- A row as the filtered GeoJSON view endpoint reads it (app.py:332-344):
Supabase rows carry `lat`/`lon` keys whose values may be null. -/
structure GeoRow where
  id : ℕ
  lat : Option ℚ
  lon : Option ℚ
deriving DecidableEq

/-- The coordinate pair (longitude, latitude) of the Feature emitted for one
row by `/api/sitreps.geojson` (app.py:336-351): when either coordinate is
missing both are replaced by the deterministic Congo-region defaults. -/
def geoCoords (r : GeoRow) : Option ℚ × Option ℚ :=
  if r.lon.isNone || r.lat.isNone then
    (some (15.2827 + ((r.id % 100 : ℕ) : ℚ) * 0.01),
     some (-4.2634 + ((r.id % 100 : ℕ) : ℚ) * 0.01))
  else (r.lon, r.lat)

/-- The coordinate pairs of the FeatureCollection the endpoint returns. -/
def api_sitreps_geojson_coords (rows : List GeoRow) : List (Option ℚ × Option ℚ) :=
  rows.map geoCoords

/-- Concrete heat-map rows used to instantiate the grid-bucketing theorem. -/
def hmRows0 : List HeatRow :=
  [⟨123/1000, 456/1000, some "High", some "own", 4⟩,
   ⟨149/1000, 456/1000, some "Low", some "ngo", 2⟩]

/-- A stored incident with numeric coordinates and severity High. -/
def hmSitrep0 : Sitrep :=
  ⟨4, "E", "HQ", some "own", none, some "High", some "reported", some "Unit 1",
   none, some 5, some 6, "2024-01-03T00:00:00"⟩

/-- The heat row the endpoint builds from `hmSitrep0`. -/
def hmHeatRow0 : HeatRow := ⟨5, 6, some "High", some "own", 4⟩

/-- An empty pair of layer stores used to instantiate the layer-update
theorem. -/
def demoStore : LayerStore ℕ := ⟨fun _ => none, fun _ => none⟩

/-- Sample incident row on day 2024-01-01 (single occurrence). -/
def stRowA : Sitrep :=
  ⟨1, "A", "HQ", some "own", none, some "High", some "reported", some "Unit 1",
   none, none, none, "2024-01-01T05:00:00"⟩

/-- Sample incident row on day 2024-01-02. -/
def stRowB : Sitrep :=
  ⟨2, "B", "HQ", some "own", none, some "Low", some "reported", some "Unit 1",
   none, none, none, "2024-01-02T05:00:00"⟩

/-- Second sample incident row on day 2024-01-02. -/
def stRowC : Sitrep :=
  ⟨3, "C", "HQ", some "ngo", none, some "Low", some "resolved", some "Unit 2",
   none, none, none, "2024-01-02T06:00:00"⟩

/-- A concrete day-key function for the stats groupings: the first ten
characters (the `YYYY-MM-DD` part) of an ISO timestamp. -/
def pdTake10 : String → Option String := fun s => some ⟨s.data.take 10⟩

/-- An incident row titled `T`, present in both stores. -/
def delRow : Sitrep :=
  ⟨7, "T", "HQ", some "own", none, some "High", some "reported", some "Unit 3",
   none, none, none, "2024-02-02T10:00:00"⟩

/-- Store state in which the hosted table and the legacy SQLite file both hold
the row titled `T`. -/
def delState : TwoStores := ⟨[delRow], [delRow]⟩

/-- A string-to-float parser instance for witnesses (no string parses). -/
def fos0 : String → Option ℚ := fun _ => none

/-- An empty incident table whose next generated id is 1. -/
def postSt0 : SitrepTable := ⟨[], 1⟩

/-- A valid creation payload: source present, numeric lat/lon. -/
def postData0 : SitrepPayload := ⟨some (.str "HQ"), some (.num 3), some (.num 4)⟩

/-- A JSON extractor that never succeeds (used to exercise the fallback
branch of the insights pipeline). -/
def noParse : String → Option RawInsights := fun _ => none

/-- One row of the GeoJSON view with a missing latitude. -/
def geoRow0 : GeoRow := ⟨103, none, some 5⟩

/-- A sample row inside the March 2024 date range. -/
def c6Row : Sitrep :=
  ⟨9, "D", "HQ", some "own", none, some "High", some "reported", some "Unit 1",
   none, none, none, "2024-03-05T12:00:00"⟩

/-- A March 2024 date-range filter. -/
def c6Filters : Filters :=
  ⟨some "2024-03-01T00:00:00", some "2024-03-31T23:59:59", none⟩

/-! Helper lemmas on the stable sort. -/

theorem mem_insertLe {α : Type} (le : α → α → Bool) (a x : α) (l : List α) :
    x ∈ insertLe le a l ↔ x = a ∨ x ∈ l := by
  induction l with
  | nil => simp [insertLe]
  | cons b bs ih =>
    by_cases h : le a b
    · simp [insertLe, h]
    · simp [insertLe, h, ih]
      tauto

theorem mem_sortLe {α : Type} (le : α → α → Bool) (x : α) (l : List α) :
    x ∈ sortLe le l ↔ x ∈ l := by
  induction l with
  | nil => simp [sortLe]
  | cons a as ih => simp [sortLe, mem_insertLe, ih]

theorem pairwise_insertLe {α : Type} (le : α → α → Bool)
    (htrans : ∀ a b c, le a b = true → le b c = true → le a c = true)
    (htot : ∀ a b, le a b = true ∨ le b a = true)
    (a : α) (l : List α) (h : l.Pairwise (fun x y => le x y = true)) :
    (insertLe le a l).Pairwise (fun x y => le x y = true) := by
  induction l with
  | nil => simp [insertLe]
  | cons b bs ih =>
    rw [List.pairwise_cons] at h
    obtain ⟨hb, hbs⟩ := h
    by_cases hab : le a b = true
    · simp only [insertLe, hab, if_true]
      refine List.Pairwise.cons ?_ (List.Pairwise.cons hb hbs)
      intro y hy
      rcases List.mem_cons.mp hy with rfl | hy'
      · exact hab
      · exact htrans a b y hab (hb y hy')
    · have hab' : le a b = false := by simpa using hab
      have hba : le b a = true := by
        rcases htot a b with h1 | h1
        · exact absurd h1 hab
        · exact h1
      simp only [insertLe, hab', if_false, Bool.false_eq_true]
      refine List.Pairwise.cons ?_ (ih hbs)
      intro y hy
      rcases (mem_insertLe le a y bs).mp hy with rfl | hy'
      · exact hba
      · exact hb y hy'

theorem pairwise_sortLe {α : Type} (le : α → α → Bool)
    (htrans : ∀ a b c, le a b = true → le b c = true → le a c = true)
    (htot : ∀ a b, le a b = true ∨ le b a = true)
    (l : List α) : (sortLe le l).Pairwise (fun x y => le x y = true) := by
  induction l with
  | nil => simp [sortLe]
  | cons a as ih => exact pairwise_insertLe le htrans htot a _ ih

/-! Helper lemmas on the lexicographic string order. -/

theorem charListLe_total (as bs : List Char) :
    charListLe as bs = true ∨ charListLe bs as = true := by
  induction as generalizing bs with
  | nil => left; rfl
  | cons a as ih =>
    cases bs with
    | nil => right; rfl
    | cons b bs =>
      rcases lt_trichotomy a b with h | h | h
      · left; simp [charListLe, h]
      · subst h
        simpa [charListLe, lt_irrefl] using ih bs
      · right; simp [charListLe, h]

theorem charListLe_trans (as bs cs : List Char)
    (h1 : charListLe as bs = true) (h2 : charListLe bs cs = true) :
    charListLe as cs = true := by
  induction as generalizing bs cs with
  | nil => rfl
  | cons a as ih =>
    cases bs with
    | nil => simp [charListLe] at h1
    | cons b bs =>
      cases cs with
      | nil => simp [charListLe] at h2
      | cons c cs =>
        rcases lt_trichotomy a b with hab | hab | hab
        · rcases lt_trichotomy b c with hbc | hbc | hbc
          · simp [charListLe, lt_trans hab hbc]
          · subst hbc; simp [charListLe, hab]
          · rcases lt_trichotomy a c with hac | hac | hac
            · simp [charListLe, hac]
            · subst hac
              simp [charListLe, lt_irrefl, hbc, lt_asymm hbc] at h2
            · simp [charListLe, lt_asymm hab, hab, lt_asymm hbc, hbc] at h1 h2
        · subst hab
          rcases lt_trichotomy a c with hac | hac | hac
          · simp [charListLe, hac]
          · subst hac
            simp [charListLe, lt_irrefl] at h1 h2 ⊢
            exact ih bs cs h1 h2
          · simp [charListLe, lt_irrefl] at h1
            simp [charListLe, lt_asymm hac, hac] at h2
        · simp [charListLe, lt_asymm hab, hab] at h1

theorem strLe_total (a b : String) : strLe a b = true ∨ strLe b a = true :=
  charListLe_total a.data b.data

theorem strLe_trans (a b c : String)
    (h1 : strLe a b = true) (h2 : strLe b c = true) : strLe a c = true :=
  charListLe_trans a.data b.data c.data h1 h2

/-! Helper lemmas on the heat-map grid aggregation. -/

theorem countKey_cons (g : ℚ) (k : ℚ × ℚ) (r : HeatRow) (rs : List HeatRow) :
    countKey g k (r :: rs) = countKey g k rs + (if gridKey g r = k then 1 else 0) := by
  simp [countKey, List.countP_cons]

theorem weightKey_cons (g : ℚ) (k : ℚ × ℚ) (r : HeatRow) (rs : List HeatRow) :
    weightKey g k (r :: rs) = (if gridKey g r = k then r.weight else 0) + weightKey g k rs := by
  by_cases h : gridKey g r = k
  · simp [weightKey, List.filter_cons, h]
  · simp [weightKey, List.filter_cons, h]

theorem weightKey_eq_zero (g : ℚ) (k : ℚ × ℚ) (rows : List HeatRow)
    (h : countKey g k rows = 0) : weightKey g k rows = 0 := by
  rw [countKey, List.countP_eq_zero] at h
  have hf : rows.filter (fun r => decide (gridKey g r = k)) = [] := by
    rw [List.filter_eq_nil_iff]
    exact h
  simp [weightKey, hf]

theorem findCell_bumpCell (k k' : ℚ × ℚ) (w : ℕ) (l : List ((ℚ × ℚ) × CellAgg)) :
    findCell k (bumpCell k' w l) =
      if k = k' then
        match findCell k l with
        | none => some ⟨1, w⟩
        | some c => some ⟨c.count + 1, c.weight + w⟩
      else findCell k l := by
  induction l with
  | nil =>
    by_cases h : k = k' <;> simp [bumpCell, findCell, h]
  | cons hd tl ih =>
    obtain ⟨k0, c0⟩ := hd
    by_cases h0 : k' = k0
    · subst h0
      by_cases hk : k = k'
      · subst hk
        simp [bumpCell, findCell]
      · simp [bumpCell, findCell, hk]
    · by_cases hk : k = k0
      · subst hk
        have hkk' : k ≠ k' := fun h => h0 h.symm
        simp [bumpCell, findCell, h0, hkk']
      · simp [bumpCell, findCell, h0, hk, ih]

theorem findCell_foldl (g : ℚ) (rows : List HeatRow) :
    ∀ (acc : List ((ℚ × ℚ) × CellAgg)) (k : ℚ × ℚ),
    findCell k (rows.foldl (fun a r => bumpCell (gridKey g r) r.weight a) acc) =
      match findCell k acc with
      | some c => some ⟨c.count + countKey g k rows, c.weight + weightKey g k rows⟩
      | none =>
        if countKey g k rows = 0 then none
        else some ⟨countKey g k rows, weightKey g k rows⟩ := by
  induction rows with
  | nil =>
    intro acc k
    simp only [List.foldl_nil, countKey, weightKey, List.countP_nil, List.filter_nil,
      List.map_nil, List.sum_nil]
    cases findCell k acc <;> simp
  | cons r rs ih =>
    intro acc k
    rw [List.foldl_cons, ih, findCell_bumpCell, countKey_cons, weightKey_cons]
    by_cases hk : k = gridKey g r
    · subst hk
      cases hfc : findCell (gridKey g r) acc with
      | none =>
        simp [CellAgg.mk.injEq]
        omega
      | some c =>
        simp [CellAgg.mk.injEq]
        omega
    · have hk' : gridKey g r ≠ k := fun h => hk h.symm
      simp [hk, hk']

theorem cellCount_eq (g : ℚ) (rows : List HeatRow) (k : ℚ × ℚ) :
    cellCount g rows k = countKey g k rows := by
  have h := findCell_foldl g rows [] k
  rw [cellCount, gridAgg, h]
  by_cases hc : countKey g k rows = 0
  · simp [findCell, hc]
  · simp [findCell, hc]

theorem cellWeight_eq (g : ℚ) (rows : List HeatRow) (k : ℚ × ℚ) :
    cellWeight g rows k = weightKey g k rows := by
  have h := findCell_foldl g rows [] k
  rw [cellWeight, gridAgg, h]
  by_cases hc : countKey g k rows = 0
  · simp [findCell, hc, weightKey_eq_zero g k rows hc]
  · simp [findCell, hc]

theorem severityWeight_eq_spec (sev : Option String) :
    severityWeight sev = specSeverityWeight sev := by
  cases sev with
  | none => decide
  | some v =>
    by_cases hv : v = ""
    · subst hv; decide
    · simp [severityWeight, specSeverityWeight, pyOr, hv]

/-- Claim C1: the layer-update endpoint checks `result.get("success")` and so
falls back to the local file on an error dict, but the conversion endpoint
tests the truthiness of the whole returned dict, which is truthy even for
`{"error": ...}`: on an upload failure it skips the local fallback and reports
storage `supabase`, contradicting its own fallback branch and docstring. -/
theorem C1_convert_no_local_fallback :
    updateLayerWritesLocalFallback (.err "Storage error: upload failed") = true
    ∧ convertWritesLocalFallback (.err "Storage error: upload failed") = false
    ∧ convertStorageLocation (.err "Storage error: upload failed") = "supabase"
    ∧ updateLayerWritesLocalFallback (.ok "demo.geojson") = false
    ∧ convertWritesLocalFallback (.ok "demo.geojson") = false := by
  decide

/-- Claim C3: for a non-zero grid size, two heat rows land in the same grid
bucket exactly when rounding `lat/gridSize` and `lon/gridSize` (Python's
`round`) gives the same pair of multiples; and each bucket's count equals the
number of rows the grid assigns to it (the default gridSize is 0.1). -/
theorem C3_heatmap_grid_bucketing (g : ℚ) (rows : List HeatRow) (hg : g ≠ 0) :
    (∀ r₁ r₂ : HeatRow, gridKey g r₁ = gridKey g r₂ ↔
      (pyRound (r₁.lat / g) = pyRound (r₂.lat / g)
        ∧ pyRound (r₁.lon / g) = pyRound (r₂.lon / g)))
    ∧ ∀ k : ℚ × ℚ, cellCount g rows k = countKey g k rows := by
  constructor
  · intro r₁ r₂
    constructor
    · intro h
      rw [gridKey, gridKey, Prod.mk.injEq] at h
      obtain ⟨h1, h2⟩ := h
      have e1 : ((pyRound (r₁.lat / g) : ℚ)) = ((pyRound (r₂.lat / g) : ℚ)) :=
        mul_right_cancel₀ hg h1
      have e2 : ((pyRound (r₁.lon / g) : ℚ)) = ((pyRound (r₂.lon / g) : ℚ)) :=
        mul_right_cancel₀ hg h2
      exact ⟨by exact_mod_cast e1, by exact_mod_cast e2⟩
    · intro ⟨h1, h2⟩
      rw [gridKey, gridKey, h1, h2]
  · intro k
    exact cellCount_eq g rows k

/-- Witness: the grid-bucketing theorem instantiated at the default grid size
0.1 and two concrete rows 0.0123° apart in latitude. -/
theorem C3_heatmap_grid_bucketing_witness :
    ((1 : ℚ)/10 ≠ 0)
    ∧ ((∀ r₁ r₂ : HeatRow, gridKey ((1 : ℚ)/10) r₁ = gridKey ((1 : ℚ)/10) r₂ ↔
        (pyRound (r₁.lat / ((1 : ℚ)/10)) = pyRound (r₂.lat / ((1 : ℚ)/10))
          ∧ pyRound (r₁.lon / ((1 : ℚ)/10)) = pyRound (r₂.lon / ((1 : ℚ)/10))))
      ∧ ∀ k : ℚ × ℚ, cellCount ((1 : ℚ)/10) hmRows0 k = countKey ((1 : ℚ)/10) k hmRows0) :=
  ⟨by norm_num, C3_heatmap_grid_bucketing ((1 : ℚ)/10) hmRows0 (by norm_num)⟩

/-- Claim C8: the heat-map severity weight is the fixed case-insensitive
lookup critical=5, high=4, medium=3, low=2, other or missing=1 (the rows the
endpoint processes carry exactly these weights), and each grid cell's weight
is the sum of the weights of the rows assigned to it. -/
theorem C8_heatmap_severity_weights :
    (∀ sev : Option String, severityWeight sev = specSeverityWeight sev)
    ∧ (∀ (rows : List Sitrep), ∀ r ∈ toHeatRows rows,
        r.weight = specSeverityWeight r.severity)
    ∧ ∀ (g : ℚ) (rows : List Sitrep) (k : ℚ × ℚ),
        cellWeight g (toHeatRows rows) k = weightKey g k (toHeatRows rows) := by
  refine ⟨severityWeight_eq_spec, ?_, ?_⟩
  · intro rows r hr
    rw [toHeatRows, List.mem_filterMap] at hr
    obtain ⟨s, _, hf⟩ := hr
    cases hla : s.lat with
    | none => rw [hla] at hf; simp at hf
    | some la =>
      cases hlo : s.lon with
      | none => rw [hla, hlo] at hf; simp at hf
      | some lo =>
        rw [hla, hlo] at hf
        simp only [Option.some.injEq] at hf
        rw [← hf]
        exact severityWeight_eq_spec s.severity
  · intro g rows k
    exact cellWeight_eq g (toHeatRows rows) k

/-- Witness: the severity-weight theorem instantiated at the row built from a
stored incident with severity High (weight 4). -/
theorem C8_heatmap_severity_weights_witness :
    hmHeatRow0 ∈ toHeatRows [hmSitrep0]
    ∧ hmHeatRow0.weight = specSeverityWeight hmHeatRow0.severity :=
  ⟨by decide, C8_heatmap_severity_weights.2.1 [hmSitrep0] hmHeatRow0 (by decide)⟩

/-! Sortedness of the stats groupings. -/

theorem pairwise_sortByCountDesc (l : List (String × ℕ)) :
    (sortByCountDesc l).Pairwise (fun a b => b.2 ≤ a.2) := by
  have h := pairwise_sortLe (fun a b : String × ℕ => decide (b.2 ≤ a.2))
    (fun a b c h1 h2 => by
      rw [decide_eq_true_eq] at h1 h2 ⊢
      exact le_trans h2 h1)
    (fun a b => by
      rw [decide_eq_true_eq, decide_eq_true_eq]
      exact Nat.le_total b.2 a.2)
    l
  exact h.imp (fun hab => by rwa [decide_eq_true_eq] at hab)

theorem pairwise_sortByKeyAsc (l : List (String × ℕ)) :
    (sortByKeyAsc l).Pairwise (fun a b => strLe a.1 b.1 = true) :=
  pairwise_sortLe (fun a b : String × ℕ => strLe a.1 b.1)
    (fun a b c h1 h2 => strLe_trans a.1 b.1 c.1 h1 h2)
    (fun a b => strLe_total a.1 b.1)
    l

/-- Claim C4 (amended): the severity, source-category, status and top-units
groupings of the stats endpoint are ordered by count descending, and top-units
keeps at most 10 entries; the by-day grouping however is ordered by day key
ascending (Python `sorted` on the dict items), not by count. -/
theorem C4_stats_orderings (pd : String → Option String) (rows : List Sitrep) :
    (statsBySeverity rows).Pairwise (fun a b => b.2 ≤ a.2)
    ∧ (statsBySourceCategory rows).Pairwise (fun a b => b.2 ≤ a.2)
    ∧ (statsByStatus rows).Pairwise (fun a b => b.2 ≤ a.2)
    ∧ (statsTopUnits rows).Pairwise (fun a b => b.2 ≤ a.2)
    ∧ (statsTopUnits rows).length ≤ 10
    ∧ (statsByDay pd rows).Pairwise (fun a b => strLe a.1 b.1 = true) := by
  refine ⟨pairwise_sortByCountDesc _, pairwise_sortByCountDesc _,
    pairwise_sortByCountDesc _, ?_, ?_, pairwise_sortByKeyAsc _⟩
  · exact (pairwise_sortByCountDesc _).sublist (List.take_sublist _ _)
  · rw [statsTopUnits]
    exact le_trans (le_of_eq (List.length_take _ _)) (min_le_left _ _)

/-- Counterexample to claim C4 as stated: with one incident on 2024-01-01 and
two on 2024-01-02, the by-day grouping is `[(2024-01-01, 1), (2024-01-02, 2)]`,
which is not ordered by count descending. -/
theorem C4_stats_orderings_counterexample :
    ¬ (statsByDay pdTake10 [stRowA, stRowB, stRowC]).Pairwise
        (fun a b => b.2 ≤ a.2) := by
  decide

/-! Membership lemmas for the query filters. -/

theorem mem_filterFrom {fd : Option String} {l : List Sitrep} {r : Sitrep}
    (h : r ∈ filterFrom fd l) :
    r ∈ l ∧ ∀ f, fd = some f → strLe f r.created_at = true := by
  cases fd with
  | none =>
    refine ⟨h, ?_⟩
    intro f hf
    cases hf
  | some f =>
    rw [filterFrom] at h
    have h' := List.mem_filter.mp h
    refine ⟨h'.1, ?_⟩
    intro f' hf'
    cases hf'
    exact h'.2

theorem mem_filterTo {td : Option String} {l : List Sitrep} {r : Sitrep}
    (h : r ∈ filterTo td l) :
    r ∈ l ∧ ∀ t, td = some t → strLe r.created_at t = true := by
  cases td with
  | none =>
    refine ⟨h, ?_⟩
    intro t ht
    cases ht
  | some t =>
    rw [filterTo] at h
    have h' := List.mem_filter.mp h
    refine ⟨h'.1, ?_⟩
    intro t' ht'
    cases ht'
    exact h'.2

theorem mem_filterCats {sc : Option String} {l : List Sitrep} {r : Sitrep}
    (h : r ∈ filterCats sc l) : r ∈ l := by
  cases sc with
  | none => exact h
  | some cs => exact (List.mem_filter.mp h).1

/-- Claim C6: every row the query function returns under a date-range filter
has `created_at` within the range: at least `from_date` when one is given, at
most `to_date` when one is given (timestamp order is the lexicographic order
on ISO strings). -/
theorem C6_get_sitreps_date_range (table : List Sitrep) (filters : Filters)
    (r : Sitrep) (hr : r ∈ get_sitreps table filters) :
    (∀ f, filters.from_date = some f → strLe f r.created_at = true)
    ∧ (∀ t, filters.to_date = some t → strLe r.created_at t = true) := by
  rw [get_sitreps, mem_sortLe] at hr
  have h1 := mem_filterCats hr
  have h2 := mem_filterTo h1
  have h3 := mem_filterFrom h2.1
  exact ⟨h3.2, h2.2⟩

/-- Witness: the date-range theorem instantiated at a March 2024 filter and a
row created 2024-03-05. -/
theorem C6_get_sitreps_date_range_witness :
    c6Row ∈ get_sitreps [c6Row] c6Filters
    ∧ ((∀ f, c6Filters.from_date = some f → strLe f c6Row.created_at = true)
      ∧ (∀ t, c6Filters.to_date = some t → strLe c6Row.created_at t = true)) :=
  ⟨by decide, C6_get_sitreps_date_range [c6Row] c6Filters c6Row (by decide)⟩

/-- Claim C7: the delete endpoint removes the title-matched rows from the
legacy SQLite store and reports that store's rowcount, while the read
endpoints query the hosted Supabase table: deleting title `T` reports count 1
yet the row titled `T` is still returned by the reads. -/
theorem C7_delete_targets_wrong_store :
    (api_sitreps_delete delState (some ["T"])).2 = .deleted 1
    ∧ (api_sitreps_delete delState (some ["T"])).1.sqlite = []
    ∧ readSitreps (api_sitreps_delete delState (some ["T"])).1 = [delRow]
    ∧ (api_sitreps_delete delState none).2
        = .badRequest "Provide a non-empty titles array"
    ∧ (api_sitreps_delete delState (some [])).2
        = .badRequest "Provide a non-empty titles array"
    ∧ (api_sitreps_delete delState (some ["  "])).2
        = .badRequest "No valid titles provided"
    ∧ (api_sitreps_delete delState (some ["  "])).1 = delState := by
  decide

theorem update_layer_eq_remote {F : Type} (st : LayerStore F) (layer : String)
    (fs : List F) :
    update_layer true st layer (some fs)
      = ({ st with remote := fun n => if n = layer then some fs else st.remote n },
         .ok fs.length "supabase") := by
  simp [update_layer]

theorem update_layer_eq_local_some {F : Type} (st : LayerStore F) (layer : String)
    (fs : List F) (doc : LayerDoc F) (hdoc : st.localFs layer = some doc)
    (hf : doc.hasFeatures = true) :
    update_layer false st layer (some fs)
      = ({ st with localFs := fun n =>
            if n = layer then some { doc with features := fs } else st.localFs n },
         .ok fs.length "local") := by
  simp [update_layer, hdoc, hf]

theorem update_layer_eq_local_none {F : Type} (st : LayerStore F) (layer : String)
    (fs : List F) (hdoc : st.localFs layer = none) :
    update_layer false st layer (some fs)
      = ({ st with localFs := fun n =>
            if n = layer then some (newDoc fs) else st.localFs n },
         .ok fs.length "local") := by
  simp [update_layer, hdoc]

/-- Claim C2: a successful layer update stores exactly the submitted feature
list (wholesale replacement, read back by the layer read path), the identical
update applied again yields the identical state and response, and the
response reports `updatedCount` equal to the length of the submitted list —
on the remote path and on the local fallback path alike. -/
theorem C2_layer_update_replace_idempotent {F : Type} (remoteOk : Bool)
    (st : LayerStore F) (layer : String) (fs : List F)
    (h : ((update_layer remoteOk st layer (some fs)).2).isOk = true) :
    readLayer remoteOk (update_layer remoteOk st layer (some fs)).1 layer = some fs
    ∧ update_layer remoteOk (update_layer remoteOk st layer (some fs)).1 layer (some fs)
        = update_layer remoteOk st layer (some fs)
    ∧ (update_layer remoteOk st layer (some fs)).2
        = .ok fs.length (if remoteOk then "supabase" else "local") := by
  cases remoteOk with
  | true =>
    rw [update_layer_eq_remote]
    refine ⟨?_, ?_, ?_⟩
    · simp [readLayer]
    · rw [update_layer_eq_remote]
      refine congrArg₂ Prod.mk (LayerStore.ext ?_ rfl) rfl
      funext n
      by_cases hn : n = layer <;> simp [hn]
    · rfl
  | false =>
    cases hdoc : st.localFs layer with
    | some doc =>
      by_cases hf : doc.hasFeatures
      · rw [update_layer_eq_local_some st layer fs doc hdoc hf]
        refine ⟨?_, ?_, ?_⟩
        · simp [readLayer]
        · rw [update_layer_eq_local_some _ layer fs { doc with features := fs }
            (by simp) hf]
          refine congrArg₂ Prod.mk (LayerStore.ext rfl ?_) rfl
          funext n
          by_cases hn : n = layer <;> simp [hn]
        · rfl
      · simp [update_layer, hdoc, hf, LayerResp.isOk] at h
    | none =>
      rw [update_layer_eq_local_none st layer fs hdoc]
      refine ⟨?_, ?_, ?_⟩
      · simp [readLayer, newDoc]
      · rw [update_layer_eq_local_some _ layer fs (newDoc fs) (by simp) rfl]
        refine congrArg₂ Prod.mk (LayerStore.ext rfl ?_) rfl
        funext n
        by_cases hn : n = layer <;> simp [hn, newDoc]
      · rfl

/-- Witness: the layer-update theorem instantiated over the empty store at
layer `roads` with a two-feature payload, on the remote path. -/
theorem C2_layer_update_witness :
    ((update_layer true demoStore "roads" (some [1, 2])).2).isOk = true
    ∧ (readLayer true (update_layer true demoStore "roads" (some [1, 2])).1 "roads"
        = some [1, 2]
      ∧ update_layer true (update_layer true demoStore "roads" (some [1, 2])).1
          "roads" (some [1, 2]) = update_layer true demoStore "roads" (some [1, 2])
      ∧ (update_layer true demoStore "roads" (some [1, 2])).2
          = .ok ([1, 2] : List ℕ).length (if true then "supabase" else "local")) :=
  ⟨by decide, C2_layer_update_replace_idempotent true demoStore "roads" [1, 2] (by decide)⟩

/-- Claim C5: the incident-creation endpoint rejects with HTTP 400 and leaves
the store untouched exactly when `source`, `lat` or `lon` is absent or empty,
or `lat`/`lon` does not parse as a number; otherwise it inserts one row and
returns the store-generated id of that row. -/
theorem C5_sitrep_post_validation (fos : String → Option ℚ) (st : SitrepTable)
    (data : SitrepPayload) :
    (postRejected fos data = true →
      (api_sitreps_post fos st data).1 = st
      ∧ ((api_sitreps_post fos st data).2).is400 = true)
    ∧ (postRejected fos data = false →
      (api_sitreps_post fos st data).2 = .created st.nextId
      ∧ (api_sitreps_post fos st data).1.nextId = st.nextId + 1
      ∧ ∃ la lo, pyFloat fos (data.lat.getD .null) = some la
          ∧ pyFloat fos (data.lon.getD .null) = some lo
          ∧ (api_sitreps_post fos st data).1.rows = st.rows ++ [(st.nextId, la, lo)]) := by
  by_cases h1 : isMissingOrEmpty data.source
  · constructor
    · intro _
      simp [api_sitreps_post, h1, PostResp.is400]
    · intro hrej
      rw [postRejected] at hrej
      simp [h1] at hrej
  · by_cases h2 : isMissingOrEmpty data.lat
    · constructor
      · intro _
        simp [api_sitreps_post, h1, h2, PostResp.is400]
      · intro hrej
        rw [postRejected] at hrej
        simp [h2] at hrej
    · by_cases h3 : isMissingOrEmpty data.lon
      · constructor
        · intro _
          simp [api_sitreps_post, h1, h2, h3, PostResp.is400]
        · intro hrej
          rw [postRejected] at hrej
          simp [h3] at hrej
      · cases hla : pyFloat fos (data.lat.getD .null) with
        | none =>
          constructor
          · intro _
            simp [api_sitreps_post, h1, h2, h3, hla, PostResp.is400]
          · intro hrej
            rw [postRejected] at hrej
            simp [hla] at hrej
        | some la =>
          cases hlo : pyFloat fos (data.lon.getD .null) with
          | none =>
            constructor
            · intro _
              simp [api_sitreps_post, h1, h2, h3, hla, hlo, PostResp.is400]
            · intro hrej
              rw [postRejected] at hrej
              simp [hlo] at hrej
          | some lo =>
            constructor
            · intro hrej
              rw [postRejected] at hrej
              simp [h1, h2, h3, hla, hlo] at hrej
            · intro _
              refine ⟨?_, ?_, la, lo, rfl, rfl, ?_⟩
              · simp [api_sitreps_post, h1, h2, h3, hla, hlo]
              · simp [api_sitreps_post, h1, h2, h3, hla, hlo]
              · simp [api_sitreps_post, h1, h2, h3, hla, hlo]

/-- Witness: the creation theorem instantiated at a valid payload (source
`HQ`, lat 3, lon 4) over the empty store with next id 1. -/
theorem C5_sitrep_post_validation_witness :
    postRejected fos0 postData0 = false
    ∧ ((api_sitreps_post fos0 postSt0 postData0).2 = .created postSt0.nextId
      ∧ (api_sitreps_post fos0 postSt0 postData0).1.nextId = postSt0.nextId + 1
      ∧ ∃ la lo, pyFloat fos0 (postData0.lat.getD .null) = some la
          ∧ pyFloat fos0 (postData0.lon.getD .null) = some lo
          ∧ (api_sitreps_post fos0 postSt0 postData0).1.rows
              = postSt0.rows ++ [(postSt0.nextId, la, lo)]) :=
  ⟨by decide, (C5_sitrep_post_validation fos0 postSt0 postData0).2 (by decide)⟩

/-- Claim C9: every output of the insights response pipeline has its pattern
confidences clamped into [0, 100], anomaly severities in High/Medium/Low and
trend directions in Upward/Downward/Stable; and when neither the direct JSON
parse nor the salvage extraction succeeds, the result is exactly the
keyword-triggered placeholder insights (a placeholder pattern, anomaly or
trend appears exactly when its trigger keyword occurs in the lowercased
text). The output type carries exactly the four keys patterns, anomalies,
trends, summary, as every return branch of the pipeline does. -/
theorem C9_insights_validation (pj ex : String → Option RawInsights) (text : String) :
    (∀ p ∈ (analyzeResponse pj ex text).patterns, 0 ≤ p.confidence ∧ p.confidence ≤ 100)
    ∧ (∀ a ∈ (analyzeResponse pj ex text).anomalies,
        a.severity = "High" ∨ a.severity = "Medium" ∨ a.severity = "Low")
    ∧ (∀ t ∈ (analyzeResponse pj ex text).trends,
        t.direction = "Upward" ∨ t.direction = "Downward" ∨ t.direction = "Stable")
    ∧ (pj text = none → ex text = none →
        analyzeResponse pj ex text = fallbackInsights text
        ∧ ((analyzeResponse pj ex text).patterns ≠ []
            ↔ strContains (lowerStr text) "pattern" = true)
        ∧ ((analyzeResponse pj ex text).anomalies ≠ []
            ↔ (strContains (lowerStr text) "anomaly"
                || strContains (lowerStr text) "unusual") = true)
        ∧ ((analyzeResponse pj ex text).trends ≠ []
            ↔ (strContains (lowerStr text) "trend"
                || strContains (lowerStr text) "increasing"
                || strContains (lowerStr text) "decreasing") = true)) := by
  have hval : ∀ j : RawInsights,
      (∀ p ∈ (validate_and_format_insights j).patterns,
          0 ≤ p.confidence ∧ p.confidence ≤ 100)
      ∧ (∀ a ∈ (validate_and_format_insights j).anomalies,
          a.severity = "High" ∨ a.severity = "Medium" ∨ a.severity = "Low")
      ∧ (∀ t ∈ (validate_and_format_insights j).trends,
          t.direction = "Upward" ∨ t.direction = "Downward" ∨ t.direction = "Stable") := by
    intro j
    refine ⟨?_, ?_, ?_⟩
    · intro p hp
      rw [validate_and_format_insights] at hp
      simp only [List.mem_map] at hp
      obtain ⟨q, _, rfl⟩ := hp
      rw [validatePattern]
      constructor
      · exact le_min (by norm_num) (le_max_left 0 _)
      · exact min_le_left _ _
    · intro a ha
      rw [validate_and_format_insights] at ha
      simp only [List.mem_map] at ha
      obtain ⟨q, _, rfl⟩ := ha
      simp only [validateAnomaly]
      generalize (if q.hasSeverity = true then q.severity else "Medium") = s
      by_cases hs : s = "High" ∨ s = "Medium" ∨ s = "Low"
      · rw [if_pos hs]
        exact hs
      · rw [if_neg hs]
        exact Or.inr (Or.inl rfl)
    · intro t ht
      rw [validate_and_format_insights] at ht
      simp only [List.mem_map] at ht
      obtain ⟨q, _, rfl⟩ := ht
      simp only [validateTrend]
      generalize (if q.hasDirection = true then q.direction else "Stable") = d
      by_cases hd : d = "Upward" ∨ d = "Downward" ∨ d = "Stable"
      · rw [if_pos hd]
        exact hd
      · rw [if_neg hd]
        exact Or.inr (Or.inr rfl)
  have hfall : ∀ s : String,
      (∀ p ∈ (fallbackInsights s).patterns, 0 ≤ p.confidence ∧ p.confidence ≤ 100)
      ∧ (∀ a ∈ (fallbackInsights s).anomalies,
          a.severity = "High" ∨ a.severity = "Medium" ∨ a.severity = "Low")
      ∧ (∀ t ∈ (fallbackInsights s).trends,
          t.direction = "Upward" ∨ t.direction = "Downward" ∨ t.direction = "Stable") := by
    intro s
    refine ⟨?_, ?_, ?_⟩
    · intro p hp
      rw [fallbackInsights] at hp
      by_cases hc : strContains (lowerStr s) "pattern" = true
      · simp only [hc, if_true] at hp
        rcases List.mem_singleton.mp hp with rfl
        norm_num
      · simp only [hc] at hp
        simp at hp
    · intro a ha
      rw [fallbackInsights] at ha
      by_cases hc : (strContains (lowerStr s) "anomaly"
          || strContains (lowerStr s) "unusual") = true
      · simp only [hc, if_true] at ha
        rcases List.mem_singleton.mp ha with rfl
        simp
      · simp only [hc] at ha
        simp at ha
    · intro t ht
      rw [fallbackInsights] at ht
      by_cases hc : (strContains (lowerStr s) "trend"
          || strContains (lowerStr s) "increasing"
          || strContains (lowerStr s) "decreasing") = true
      · simp only [hc, if_true] at ht
        rcases List.mem_singleton.mp ht with rfl
        by_cases h1 : strContains (lowerStr s) "increasing" = true
        · simp [h1]
        · by_cases h2 : strContains (lowerStr s) "decreasing" = true
          · simp [h1, h2]
          · simp [h1, h2]
      · simp only [hc] at ht
        simp at ht
  cases hpj : pj text with
  | some j =>
    refine ⟨?_, ?_, ?_, ?_⟩
    · simpa [analyzeResponse, hpj] using (hval j).1
    · simpa [analyzeResponse, hpj] using (hval j).2.1
    · simpa [analyzeResponse, hpj] using (hval j).2.2
    · intro hnone
      simp at hnone
  | none =>
    cases hex : ex text with
    | some j =>
      refine ⟨?_, ?_, ?_, ?_⟩
      · simpa [analyzeResponse, parse_text_response_to_insights, hpj, hex] using (hval j).1
      · simpa [analyzeResponse, parse_text_response_to_insights, hpj, hex] using (hval j).2.1
      · simpa [analyzeResponse, parse_text_response_to_insights, hpj, hex] using (hval j).2.2
      · intro _ hnone
        simp at hnone
    | none =>
      have hout : analyzeResponse pj ex text = fallbackInsights text := by
        simp [analyzeResponse, parse_text_response_to_insights, hpj, hex]
      refine ⟨?_, ?_, ?_, ?_⟩
      · simpa [hout] using (hfall text).1
      · simpa [hout] using (hfall text).2.1
      · simpa [hout] using (hfall text).2.2
      · intro _ _
        refine ⟨hout, ?_, ?_, ?_⟩
        · rw [hout, fallbackInsights]
          by_cases hc : strContains (lowerStr text) "pattern" = true <;> simp [hc]
        · rw [hout, fallbackInsights]
          by_cases hc : (strContains (lowerStr text) "anomaly"
              || strContains (lowerStr text) "unusual") = true <;> simp [hc]
        · rw [hout, fallbackInsights]
          by_cases hc : (strContains (lowerStr text) "trend"
              || strContains (lowerStr text) "increasing"
              || strContains (lowerStr text) "decreasing") = true <;> simp [hc]

/-- Witness: the insights theorem's fallback conclusion at a concrete response
text containing the keywords `trend` and `increasing` and no parsable JSON. -/
theorem C9_insights_validation_witness :
    noParse "an increasing trend" = none
    ∧ (analyzeResponse noParse noParse "an increasing trend"
          = fallbackInsights "an increasing trend"
      ∧ ((analyzeResponse noParse noParse "an increasing trend").patterns ≠ []
          ↔ strContains (lowerStr "an increasing trend") "pattern" = true)
      ∧ ((analyzeResponse noParse noParse "an increasing trend").anomalies ≠ []
          ↔ (strContains (lowerStr "an increasing trend") "anomaly"
              || strContains (lowerStr "an increasing trend") "unusual") = true)
      ∧ ((analyzeResponse noParse noParse "an increasing trend").trends ≠ []
          ↔ (strContains (lowerStr "an increasing trend") "trend"
              || strContains (lowerStr "an increasing trend") "increasing"
              || strContains (lowerStr "an increasing trend") "decreasing") = true)) :=
  ⟨rfl, (C9_insights_validation noParse noParse "an increasing trend").2.2.2 rfl rfl⟩

/-- Claim C10: every feature the filtered GeoJSON view emits has non-null
numeric Point coordinates, and rows with a missing latitude or longitude get
the deterministic Congo-region defaults derived from `id mod 100`. -/
theorem C10_geojson_default_coordinates (rows : List GeoRow) :
    (∀ c ∈ api_sitreps_geojson_coords rows, c.1.isSome ∧ c.2.isSome)
    ∧ ∀ r ∈ rows, (r.lat = none ∨ r.lon = none) →
        geoCoords r = (some (15.2827 + ((r.id % 100 : ℕ) : ℚ) * 0.01),
                       some (-4.2634 + ((r.id % 100 : ℕ) : ℚ) * 0.01)) := by
  constructor
  · intro c hc
    rw [api_sitreps_geojson_coords, List.mem_map] at hc
    obtain ⟨r, _, rfl⟩ := hc
    rw [geoCoords]
    cases hlo : r.lon with
    | none => simp [hlo]
    | some lo =>
      cases hla : r.lat with
      | none => simp [hlo, hla]
      | some la => simp [hlo, hla]
  · intro r _ hmiss
    rw [geoCoords, if_pos ?_]
    rcases hmiss with hla | hlo
    · simp [hla]
    · simp [hlo]

/-- Witness: the default-coordinate theorem instantiated at a row with id 103
and a missing latitude. -/
theorem C10_geojson_default_coordinates_witness :
    geoRow0 ∈ [geoRow0]
    ∧ (geoRow0.lat = none ∨ geoRow0.lon = none)
    ∧ geoCoords geoRow0 = (some (15.2827 + ((geoRow0.id % 100 : ℕ) : ℚ) * 0.01),
                           some (-4.2634 + ((geoRow0.id % 100 : ℕ) : ℚ) * 0.01)) :=
  ⟨by decide, Or.inl rfl,
    (C10_geojson_default_coordinates [geoRow0]).2 geoRow0 (by decide) (Or.inl rfl)⟩

end SamUn
